import Mathlib

/-!
Verification model of the chronicle ingestion engine.

The definitions below are a shallow embedding of the Rust sources:
  - `src/store/mod.rs`   (MetadataStore: compute_short_hash, upsert_session,
    auto_link_project, insert_messages, project helpers)
  - `src/store/schema.rs` (table shapes; note the `sessions` table declares
    `short_hash TEXT NOT NULL` with a plain, non-unique index and no UNIQUE
    constraint)
  - `src/cli/extract.rs` (the extraction pipeline loop)
  - `src/probe/claudecode.rs` (truncate_title, title derivation, get_content)
  - `src/probe/mod.rs`   (SessionRef, ContentRef, SessionMetadata, ...)

SQLite tables are modelled as Lean lists in insertion order; `datetime('now')`
is modelled by an explicit `now : Nat` tick; Rust byte strings are modelled as
`List Char` with explicit UTF-8 byte sizes where the Rust code indexes by
bytes; a Rust panic (out-of-bounds or non-char-boundary slice) is modelled by
`Option`/`none`.
-/

namespace Chronicle

/-- UTF-8 byte length of a character list, mirroring Rust `str::len`. -/
def utf8Len : List Char → Nat
  | [] => 0
  | c :: rest => c.utf8Size + utf8Len rest

/-- Model of the Rust byte slice `&s[..n]`: take the characters covering the
first `n` bytes. Returns `none` (a panic in Rust) when `n` is not a character
boundary or exceeds the string's byte length. -/
def takeBytes : Nat → List Char → Option (List Char)
  | 0, _ => some []
  | _ + 1, [] => none
  | n + 1, c :: rest =>
    if c.utf8Size ≤ n + 1 then (takeBytes (n + 1 - c.utf8Size) rest).map (fun cs => c :: cs)
    else none

/-- ASCII lowercase folding used by SQLite's default `LIKE` comparison. -/
def asciiLower (c : Char) : Char :=
  if 'A' ≤ c && c ≤ 'Z' then Char.ofNat (c.toNat + 32) else c

/-- Character comparison for SQLite `LIKE` (ASCII case-insensitive). -/
def likeCharEq (a b : Char) : Bool :=
  asciiLower a == asciiLower b

/-- SQLite `LIKE` pattern matching: `%` matches any sequence, `_` any single
character, other characters match up to ASCII case. Structural on the
pattern; the `%` case tries every suffix of the subject. -/
def likeM : List Char → List Char → Bool
  | [], s => s.isEmpty
  | '%' :: ps, s => s.tails.any (fun t => likeM ps t)
  | '_' :: _, [] => false
  | '_' :: ps, _ :: s => likeM ps s
  | _ :: _, [] => false
  | p :: ps, c :: s => likeCharEq p c && likeM ps s

/-- `LIKE` on strings. -/
def likeMatch (pattern s : String) : Bool :=
  likeM pattern.data s.data

/-- Whitespace skipped by SQLite's text-to-integer conversion. -/
def isSqlSpace (c : Char) : Bool :=
  c == ' ' || c == '\t' || c == '\n' || c == '\x0b' || c == '\x0c' || c == '\r'

/-- Accumulate a digit string into a natural number. -/
def parseDigits (cs : List Char) : Nat :=
  cs.foldl (fun a c => a * 10 + (c.toNat - 48)) 0

/-- SQLite `CAST(s AS INTEGER)`: skip leading whitespace, read an optional
sign and then the longest digit prefix; anything else yields 0. -/
def castChars (cs : List Char) : Int :=
  match cs.dropWhile isSqlSpace with
  | '-' :: rest => -(parseDigits (rest.takeWhile Char.isDigit) : Int)
  | '+' :: rest => (parseDigits (rest.takeWhile Char.isDigit) : Int)
  | rest => (parseDigits (rest.takeWhile Char.isDigit) : Int)

/-- `CAST` on strings. -/
def sqliteCastInt (s : String) : Int :=
  castChars s.data

/-- Decimal digits of `n` written most-significant first; `fuel` bounds the
recursion (`fuel = n` is always enough). -/
def natDigitsAux : Nat → Nat → List Char
  | 0, _ => []
  | fuel + 1, n => if n = 0 then [] else natDigitsAux fuel (n / 10) ++ [Char.ofNat (48 + n % 10)]

/-- Decimal representation of a natural number. -/
def natChars (n : Nat) : List Char :=
  if n = 0 then ['0'] else natDigitsAux n n

/-- Decimal representation of an integer, as produced by Rust `format!`. -/
def intChars (v : Int) : List Char :=
  if v < 0 then '-' :: natChars v.natAbs else natChars v.natAbs

/-- String form of `intChars`. -/
def intStr (v : Int) : String :=
  String.mk (intChars v)

/-- Drop the first `n` characters (SQLite `SUBSTR(s, n + 1)`). -/
def dropChars (n : Nat) (s : String) : String :=
  String.mk (s.data.drop n)

/-- SQL `MAX` over a list of integers: `none` exactly when the list is empty. -/
def sqlMax : List Int → Option Int
  | [] => none
  | v :: rest =>
    match sqlMax rest with
    | none => some v
    | some m => some (max v m)

-- ============================================
-- Probe-side data model (src/probe/mod.rs)
-- ============================================

/-- `SessionRef` from src/probe/mod.rs. -/
structure SessionRef where
  id : String
  source_path : String
  deriving DecidableEq

/-- `ContentRef` from src/probe/mod.rs. -/
structure ContentRef where
  source_path : String
  byte_offset : Option Nat
  line_number : Option Nat
  content_path : Option String
  deriving DecidableEq

/-- `ToolUseMetadata` from src/probe/mod.rs. -/
structure ToolUseMetadata where
  tool_id : Option String
  tool_name : String
  has_result : Bool
  deriving DecidableEq

/-- `TokenUsage` from src/probe/mod.rs. -/
structure TokenUsage where
  input_tokens : Option Int
  output_tokens : Option Int
  cache_read_tokens : Option Int
  cache_creation_tokens : Option Int
  deriving DecidableEq

/-- `MessageMetadata` from src/probe/mod.rs; timestamps are modelled as their
already-rendered RFC 3339 strings. -/
structure MessageMetadata where
  uuid : Option String
  role : String
  provider_id : Option String
  model : Option String
  timestamp : Option String
  content_ref : ContentRef
  has_tool_use : Bool
  has_thinking : Bool
  tool_uses : List ToolUseMetadata
  token_usage : Option TokenUsage
  deriving DecidableEq

/-- `SessionMetadata` from src/probe/mod.rs. -/
structure SessionMetadata where
  external_id : String
  title : Option String
  project_path : Option String
  git_remote : Option String
  primary_provider : Option String
  primary_model : Option String
  first_timestamp : Option String
  last_timestamp : Option String
  messages : List MessageMetadata
  deriving DecidableEq

/-- `SourceType` from src/probe/mod.rs. -/
inductive SourceType where
  | single
  | multi
  deriving DecidableEq

-- ============================================
-- Store-side data model (src/store/schema.rs)
-- ============================================

/-- A row of the `sessions` table. The schema (schema.rs lines 77-96) puts a
primary key on `id` only; `short_hash` is `NOT NULL` with a non-unique index
`idx_sessions_short_hash` and carries no UNIQUE constraint. -/
structure Session where
  id : String
  probe_source_id : String
  project_id : Option String
  project_assignment : String
  external_id : String
  short_hash : String
  title : Option String
  primary_provider : Option String
  primary_model : Option String
  message_count : Nat
  first_timestamp : Option String
  last_timestamp : Option String
  source_path : String
  raw_project_path : Option String
  raw_git_remote : Option String
  indexed_at : Nat
  deriving DecidableEq

/-- A row of the `messages` table. -/
structure MessageRow where
  id : Nat
  session_id : String
  uuid : Option String
  role : String
  provider_id : Option String
  model : Option String
  timestamp : Option String
  source_path : String
  byte_offset : Option Nat
  line_number : Option Nat
  content_ref : Option String
  has_tool_use : Bool
  has_thinking : Bool
  deriving DecidableEq

/-- A row of the `tool_uses` table. -/
structure ToolUseRow where
  id : Nat
  message_id : Nat
  tool_id : Option String
  tool_name : String
  has_result : Bool
  deriving DecidableEq

/-- A row of the `token_usage` table (primary key `message_id`). -/
structure TokenUsageRow where
  message_id : Nat
  input_tokens : Option Int
  output_tokens : Option Int
  cache_read_tokens : Option Int
  cache_creation_tokens : Option Int
  deriving DecidableEq

/-- A row of the `providers` table. -/
structure ProviderRow where
  id : String
  name : String
  description : Option String
  deriving DecidableEq

/-- A row of the `probe_sources` table. -/
structure ProbeSourceRow where
  id : String
  provider_id : Option String
  source_name : String
  source_type : String
  base_path : Option String
  status : String
  last_indexed : Option Nat
  deriving DecidableEq

/-- A row of the `projects` table. -/
structure ProjectRow where
  id : String
  name : String
  ptype : String
  primary_path : Option String
  metadata : Option String
  created_at : Nat
  last_activity : Option Nat
  deriving DecidableEq

/-- A row of the `project_paths` table (`path` is UNIQUE). -/
structure ProjectPathRow where
  project_id : String
  path : String
  is_primary : Bool
  deriving DecidableEq

/-- A row of the `project_identifiers` table
(`(identifier_type, identifier_value)` is UNIQUE). -/
structure ProjectIdentifierRow where
  project_id : String
  identifier_type : String
  identifier_value : String
  deriving DecidableEq

/-- The persisted store: each SQLite table as a list in insertion order,
plus rowid counters for `messages` and `tool_uses`. -/
structure Store where
  providers : List ProviderRow
  probeSources : List ProbeSourceRow
  projects : List ProjectRow
  projectPaths : List ProjectPathRow
  projectIdentifiers : List ProjectIdentifierRow
  sessions : List Session
  messages : List MessageRow
  toolUses : List ToolUseRow
  tokenUsage : List TokenUsageRow
  nextMessageId : Nat
  nextToolUseId : Nat
  deriving DecidableEq

/-- A freshly created store. -/
def emptyStore : Store :=
  { providers := [], probeSources := [], projects := [], projectPaths := [],
    projectIdentifiers := [], sessions := [], messages := [], toolUses := [],
    tokenUsage := [], nextMessageId := 1, nextToolUseId := 1 }

-- ============================================
-- Store operations (src/store/mod.rs)
-- ============================================

/-- `MetadataStore::ensure_provider` (INSERT OR IGNORE by primary key). -/
def ensureProvider (st : Store) (id name : String) (description : Option String) : Store :=
  if st.providers.any (fun p => p.id == id) then st
  else { st with providers := st.providers ++ [{ id := id, name := name, description := description }] }

/-- `MetadataStore::ensure_probe_source` (INSERT OR IGNORE by primary key). -/
def ensureProbeSource (st : Store) (id : String) (providerId : Option String)
    (sourceName sourceType : String) (basePath : Option String) (status : String) : Store :=
  if st.probeSources.any (fun p => p.id == id) then st
  else
    { st with probeSources := st.probeSources ++
        [{ id := id, provider_id := providerId, source_name := sourceName,
           source_type := sourceType, base_path := basePath, status := status,
           last_indexed := none }] }

/-- `MetadataStore::update_probe_indexed`. -/
def updateProbeIndexed (st : Store) (probeId : String) (now : Nat) : Store :=
  { st with probeSources :=
      st.probeSources.map (fun p => if p.id == probeId then { p with last_indexed := some now } else p) }

/-- `MetadataStore::add_project_path` (INSERT OR IGNORE; `path` is UNIQUE). -/
def addProjectPath (st : Store) (projectId path : String) (isPrimary : Bool) : Store :=
  if st.projectPaths.any (fun r => r.path == path) then st
  else { st with projectPaths := st.projectPaths ++
          [{ project_id := projectId, path := path, is_primary := isPrimary }] }

/-- `MetadataStore::add_project_identifier` (INSERT OR IGNORE;
`(identifier_type, identifier_value)` is UNIQUE). -/
def addProjectIdentifier (st : Store) (projectId identifierType identifierValue : String) : Store :=
  if st.projectIdentifiers.any
      (fun r => r.identifier_type == identifierType && r.identifier_value == identifierValue) then st
  else { st with projectIdentifiers := st.projectIdentifiers ++
          [{ project_id := projectId, identifier_type := identifierType,
             identifier_value := identifierValue }] }

/-- `MetadataStore::create_project`. -/
def createProject (st : Store) (id name projectType : String)
    (primaryPath metadata : Option String) (now : Nat) : Store :=
  let st1 := { st with projects := st.projects ++
      [{ id := id, name := name, ptype := projectType, primary_path := primaryPath,
         metadata := metadata, created_at := now, last_activity := some now }] }
  match primaryPath with
  | some p => addProjectPath st1 id p true
  | none => st1

/-- `MetadataStore::find_project_by_path`: first `project_paths` row with the
given path. -/
def findProjectByPath (rows : List ProjectPathRow) (path : String) : Option String :=
  (rows.find? (fun r => r.path == path)).map (fun r => r.project_id)

/-- `MetadataStore::find_project_by_git_remote`: first `project_identifiers`
row of type `git_remote` with the given value. -/
def findProjectByGitRemote (rows : List ProjectIdentifierRow) (remote : String) : Option String :=
  (rows.find? (fun r => r.identifier_type == "git_remote" && r.identifier_value == remote)).map
    (fun r => r.project_id)

/-- `MetadataStore::touch_project`. -/
def touchProject (st : Store) (projectId : String) (now : Nat) : Store :=
  { st with projects :=
      st.projects.map (fun p => if p.id == projectId then { p with last_activity := some now } else p) }

/-- Whether the first list is a literal prefix of the second. -/
def isCharPrefix : List Char → List Char → Bool
  | [], _ => true
  | _ :: _, [] => false
  | p :: ps, c :: cs => p == c && isCharPrefix ps cs

/-- The prefix stripping at the top of `compute_short_hash`:
`external_id.strip_prefix("agent-").or_else(.. "ses_") .unwrap_or(external_id)`.
Both prefixes are ASCII, so dropping 6 (resp. 4) characters matches the Rust
byte-based remainder. -/
def stripIdPrefixes (externalId : String) : String :=
  if isCharPrefix "agent-".data externalId.data then String.mk (externalId.data.drop 6)
  else if isCharPrefix "ses_".data externalId.data then String.mk (externalId.data.drop 4)
  else externalId

/-- The base hash `if base.len() >= 8 { &base[..8] } else { base }`; byte
slicing, so `none` models the Rust panic when byte 8 is not a character
boundary. -/
def baseHash (base : String) : Option String :=
  if 8 ≤ utf8Len base.data then (takeBytes 8 base.data).map String.mk
  else some base

/-- The first query of `compute_short_hash`:
`SELECT COUNT(*) FROM sessions WHERE short_hash = ?1 OR short_hash LIKE ?2`
with `?2 = "{base}-_"`. -/
def collisionCount (db : List Session) (bh : String) : Nat :=
  db.countP (fun s => s.short_hash == bh || likeMatch (bh ++ "-_") s.short_hash)

/-- The values scanned by the second query of `compute_short_hash`:
`CAST(SUBSTR(short_hash, LENGTH(?1) + 2) AS INTEGER)` over rows with
`short_hash LIKE "{base}-%"`. -/
def suffixVals (db : List Session) (bh : String) : List Int :=
  (db.filter (fun s => likeMatch (bh ++ "-%") s.short_hash)).map
    (fun s => sqliteCastInt (dropChars (bh.length + 1) s.short_hash))

/-- `MetadataStore::compute_short_hash`. Returns the assigned hash together
with the (possibly renamed) `sessions` table; `none` models the byte-slice
panic on a non-ASCII `external_id`. -/
def computeShortHash (db : List Session) (externalId : String) : Option (String × List Session) :=
  match baseHash (stripIdPrefixes externalId) with
  | none => none
  | some bh =>
    if collisionCount db bh = 0 then some (bh, db)
    else
      let maxSuffix : Option Int := sqlMax (suffixVals db bh)
      let nextSuffix : Int := maxSuffix.getD 0 + 1
      let db1 :=
        if collisionCount db bh = 1 then
          let origHasSuffix :=
            match db.find? (fun s => s.short_hash == bh) with
            | some s => likeMatch "%-%" s.short_hash
            | none => false
          if origHasSuffix then db
          else db.map (fun s => if s.short_hash == bh then { s with short_hash := bh ++ "-1" } else s)
        else db
      some (bh ++ "-" ++ intStr (nextSuffix + 1), db1)

/-- `MetadataStore::auto_link_project`: exact path match first, then exact
`git_remote` identifier match. -/
def autoLinkProject (st : Store) (md : SessionMetadata) : Option String :=
  match md.project_path with
  | some p =>
    match findProjectByPath st.projectPaths p with
    | some pid => some pid
    | none =>
      match md.git_remote with
      | some r => findProjectByGitRemote st.projectIdentifiers r
      | none => none
  | none =>
    match md.git_remote with
    | some r => findProjectByGitRemote st.projectIdentifiers r
    | none => none

/-- The field refresh applied by `upsert_session`'s
`ON CONFLICT(id) DO UPDATE SET ...` clause: only the mutable descriptive
fields change. -/
def refreshFields (md : SessionMetadata) (now : Nat) (s : Session) : Session :=
  { s with title := md.title, primary_provider := md.primary_provider,
           primary_model := md.primary_model, message_count := md.messages.length,
           last_timestamp := md.last_timestamp, indexed_at := now }

/-- The conflict update restricted to the row with the conflicting id. -/
def applyConflictUpdate (sid : String) (md : SessionMetadata) (now : Nat) (s : Session) : Session :=
  if s.id == sid then refreshFields md now s else s

/-- The `sessions` row written by the insert path of `upsert_session`
(the `INSERT INTO sessions ... VALUES ...` tuple). -/
def newSessionRow (probeSourceId : String) (ref : SessionRef) (md : SessionMetadata)
    (projectId : Option String) (projectAssignment shortHash : String) (now : Nat) : Session :=
  { id := probeSourceId ++ ":" ++ ref.id, probe_source_id := probeSourceId,
    project_id := projectId, project_assignment := projectAssignment,
    external_id := md.external_id, short_hash := shortHash, title := md.title,
    primary_provider := md.primary_provider, primary_model := md.primary_model,
    message_count := md.messages.length, first_timestamp := md.first_timestamp,
    last_timestamp := md.last_timestamp, source_path := ref.source_path,
    raw_project_path := md.project_path, raw_git_remote := md.git_remote,
    indexed_at := now }

/-- `MetadataStore::upsert_session`. `none` models the panic inside
`compute_short_hash`. -/
def upsertSession (st : Store) (probeSourceId : String) (ref : SessionRef)
    (md : SessionMetadata) (now : Nat) : Option (Store × String) :=
  let sessionId := probeSourceId ++ ":" ++ ref.id
  let hashAndSessions : Option (String × List Session) :=
    match (st.sessions.find? (fun s => s.id == sessionId)).map (fun s => s.short_hash) with
    | some h => some (h, st.sessions)
    | none => computeShortHash st.sessions md.external_id
  match hashAndSessions with
  | none => none
  | some (shortHash, sessions1) =>
    let projectId := autoLinkProject st md
    -- the Rust code writes "auto" in both branches of its `if`
    let projectAssignment := if projectId.isSome then "auto" else "auto"
    let sessions2 :=
      if sessions1.any (fun s => s.id == sessionId) then
        sessions1.map (applyConflictUpdate sessionId md now)
      else
        sessions1 ++ [newSessionRow probeSourceId ref md projectId projectAssignment shortHash now]
    let st1 := { st with sessions := sessions2 }
    let st2 :=
      match projectId with
      | some pid => touchProject st1 pid now
      | none => st1
    some (st2, sessionId)

/-- The `messages` row built for one `MessageMetadata` by `insert_messages`. -/
def mkMessageRow (msgId : Nat) (sessionId : String) (msg : MessageMetadata) : MessageRow :=
  { id := msgId, session_id := sessionId, uuid := msg.uuid, role := msg.role,
    provider_id := msg.provider_id, model := msg.model, timestamp := msg.timestamp,
    source_path := msg.content_ref.source_path, byte_offset := msg.content_ref.byte_offset,
    line_number := msg.content_ref.line_number, content_ref := msg.content_ref.content_path,
    has_tool_use := msg.has_tool_use, has_thinking := msg.has_thinking }

/-- The `tool_uses` rows built for one message. -/
def toolRowsFrom (startId msgId : Nat) : List ToolUseMetadata → List ToolUseRow
  | [] => []
  | t :: rest =>
    { id := startId, message_id := msgId, tool_id := t.tool_id,
      tool_name := t.tool_name, has_result := t.has_result } :: toolRowsFrom (startId + 1) msgId rest

/-- The per-message loop of `insert_messages`. -/
def insertMessagesLoop (st : Store) (sessionId : String) : List MessageMetadata → Store
  | [] => st
  | msg :: rest =>
    let msgId := st.nextMessageId
    let st1 :=
      { st with
        messages := st.messages ++ [mkMessageRow msgId sessionId msg],
        toolUses := st.toolUses ++ toolRowsFrom st.nextToolUseId msgId msg.tool_uses,
        tokenUsage :=
          match msg.token_usage with
          | some u =>
            (st.tokenUsage.filter (fun r => r.message_id != msgId)) ++
              [{ message_id := msgId, input_tokens := u.input_tokens,
                 output_tokens := u.output_tokens, cache_read_tokens := u.cache_read_tokens,
                 cache_creation_tokens := u.cache_creation_tokens }]
          | none => st.tokenUsage,
        nextMessageId := msgId + 1,
        nextToolUseId := st.nextToolUseId + msg.tool_uses.length }
    insertMessagesLoop st1 sessionId rest

/-- `MetadataStore::insert_messages`: delete the session's existing message
rows, then insert the new sequence. -/
def insertMessages (st : Store) (sessionId : String) (msgs : List MessageMetadata) : Store :=
  insertMessagesLoop
    { st with messages := st.messages.filter (fun m => m.session_id != sessionId) }
    sessionId msgs

/-- The session's rows of the `messages` table. -/
def messagesFor (st : Store) (sessionId : String) : List MessageRow :=
  st.messages.filter (fun m => m.session_id == sessionId)

/-- The message rows `insert_messages` produces for a sequence of metadata,
starting from a given rowid. -/
def msgRows (startId : Nat) (sessionId : String) : List MessageMetadata → List MessageRow
  | [] => []
  | m :: rest => mkMessageRow startId sessionId m :: msgRows (startId + 1) sessionId rest

/-- A persisted message row carries exactly the data of one extracted
`MessageMetadata` (all columns except the synthetic rowid and session key). -/
def rowMatchesMeta (r : MessageRow) (m : MessageMetadata) : Prop :=
  r.uuid = m.uuid ∧ r.role = m.role ∧ r.provider_id = m.provider_id ∧
  r.model = m.model ∧ r.timestamp = m.timestamp ∧
  r.source_path = m.content_ref.source_path ∧
  r.byte_offset = m.content_ref.byte_offset ∧
  r.line_number = m.content_ref.line_number ∧
  r.content_ref = m.content_ref.content_path ∧
  r.has_tool_use = m.has_tool_use ∧ r.has_thinking = m.has_thinking

-- ============================================
-- Extraction pipeline (src/cli/extract.rs)
-- ============================================

/-- How a pipeline run can abort: `extract_metadata(session)?` propagating an
error from the per-session loop, or a store-level panic. -/
inductive RunAbort where
  | extractError
  | storePanic
  deriving DecidableEq

/-- The body of the per-session loop in `extract.rs::run`: upsert, then
insert messages only when the extracted sequence is non-empty. -/
def processSession (st : Store) (probeId : String) (ref : SessionRef)
    (md : SessionMetadata) (now : Nat) : Option (Store × String) :=
  match upsertSession st probeId ref md now with
  | none => none
  | some (st1, sessionId) =>
    if md.messages.isEmpty then some (st1, sessionId)
    else some (insertMessages st1 sessionId md.messages, sessionId)

/-- The per-session loop of `extract.rs::run`. A failing `extract` call makes
the whole loop return with `RunAbort.extractError` (the `?` operator); the
store keeps whatever was already committed. -/
def runSessions (probeId : String) (extract : SessionRef → Except Unit SessionMetadata)
    (now : Nat) : Store → List SessionRef → Store × Option RunAbort
  | st, [] => (st, none)
  | st, ref :: rest =>
    match extract ref with
    | Except.error _ => (st, some RunAbort.extractError)
    | Except.ok md =>
      match processSession st probeId ref md now with
      | none => (st, some RunAbort.storePanic)
      | some (st1, _) => runSessions probeId extract now st1 rest

/-- One probe as seen by the pipeline: its static identity, the result of
`discover()`, and its `extract_metadata` behaviour. -/
structure ProbeModel where
  id : String
  provider : String
  source : String
  sourceType : SourceType
  discovered : List SessionRef
  extract : SessionRef → Except Unit SessionMetadata

/-- `SourceType::as_str`. -/
def sourceTypeStr : SourceType → String
  | SourceType.single => "single"
  | SourceType.multi => "multi"

/-- The per-probe body of `extract.rs::run`: ensure provider/source rows,
run the session loop, and mark `last_indexed` only when the loop finished. -/
def runProbe (st : Store) (pm : ProbeModel) (now : Nat) : Store × Option RunAbort :=
  let st1 :=
    if pm.sourceType = SourceType.single then ensureProvider st pm.provider pm.provider none
    else st
  let st2 := ensureProbeSource st1 pm.id
    (if pm.sourceType = SourceType.single then some pm.provider else none)
    pm.source (sourceTypeStr pm.sourceType) none "active"
  match runSessions pm.id pm.extract now st2 pm.discovered with
  | (st3, none) => (updateProbeIndexed st3 pm.id now, none)
  | (st3, some e) => (st3, some e)

/-- The whole pipeline run over the available probes; an abort in one probe
propagates out of `run` and skips the remaining probes. -/
def runPipeline (now : Nat) : Store → List ProbeModel → Store × Option RunAbort
  | st, [] => (st, none)
  | st, pm :: rest =>
    match runProbe st pm now with
    | (st1, none) => runPipeline now st1 rest
    | (st1, some e) => (st1, some e)

-- ============================================
-- Claude Code probe (src/probe/claudecode.rs)
-- ============================================

/-- One text part of a structured message content array. -/
structure ContentPart where
  ptype : String
  ptext : Option (List Char)
  deriving DecidableEq

/-- The `message.content` JSON value of one record: a plain string or an
array of typed parts. -/
inductive MsgContent where
  | text : List Char → MsgContent
  | parts : List ContentPart → MsgContent
  deriving DecidableEq

/-- One parsed JSONL record, reduced to the fields the title derivation
reads: the resolved role and the message content. -/
structure RawRecord where
  role : String
  content : Option MsgContent
  deriving DecidableEq

/-- The text candidate the title loop extracts from a record's content:
the string itself, or the first array item with `type == "text"` carrying a
string `text` field. -/
def contentText : Option MsgContent → Option (List Char)
  | some (MsgContent.text t) => some t
  | some (MsgContent.parts ps) =>
    (ps.find? (fun p => p.ptype == "text" && p.ptext.isSome)).bind (fun p => p.ptext)
  | none => none

/-- Rust `text.lines().next().unwrap_or(text)`: the prefix before the first
newline, with a carriage return stripped when it directly precedes that
newline. -/
def rustFirstLine (cs : List Char) : List Char :=
  let pre := cs.takeWhile (fun c => c != '\n')
  if cs.any (fun c => c == '\n') && pre.getLast? == some '\r' then pre.dropLast else pre

/-- `claudecode.rs::truncate_title`. Lengths and the slice `&first_line[..97]`
are in BYTES; `none` models the Rust panic when byte 97 is not a character
boundary. -/
def truncateTitle (text : List Char) : Option (List Char) :=
  let firstLine := rustFirstLine text
  if 100 < utf8Len firstLine then
    (takeBytes 97 firstLine).map (fun pre => pre ++ ['.', '.', '.'])
  else some firstLine

/-- The title accumulation of the extraction loop (claudecode.rs lines
193-210): the first user-authored record with extractable text sets the
title; records without extractable text are passed over. The outer `Option`
models a panic inside `truncate_title`; the inner one is the derived title. -/
def sessionTitle : List RawRecord → Option (Option (List Char))
  | [] => some none
  | r :: rest =>
    if r.role == "user" then
      match contentText r.content with
      | some t => (truncateTitle t).map some
      | none => sessionTitle rest
    else sessionTitle rest

/-- The error get_content can report. `fileOpenFailed` is the `?` on
`File::open` when the source file no longer exists. -/
inductive ContentError where
  | fileOpenFailed
  deriving DecidableEq

/-- A filesystem snapshot: file path to byte content. -/
def FileSystem := List (String × List Nat)

/-- `BufRead::read_line` after a seek: the bytes up to and including the next
newline, or everything to end of file. -/
def readLineBytes : List Nat → List Nat
  | [] => []
  | b :: rest => if b == 10 then [10] else b :: readLineBytes rest

/-- `ClaudeCodeProbe::get_content`: open the file (error if missing), seek to
`byte_offset` (seeking past end of file succeeds), read one line. An offset
at or past end of file yields `ok []` — the empty read. -/
def getContent (fs : FileSystem) (ref : ContentRef) : Except ContentError (List Nat) :=
  let byteOffset := ref.byte_offset.getD 0
  match (fs.find? (fun f => f.1 == ref.source_path)).map (fun f => f.2) with
  | none => Except.error ContentError.fileOpenFailed
  | some bytes => Except.ok (readLineBytes (bytes.drop byteOffset))

-- ============================================
-- Concrete fixtures for witnesses and counterexamples
-- ============================================

/-- Session metadata carrying only an external id. -/
def mdPlain (eid : String) : SessionMetadata :=
  { external_id := eid, title := none, project_path := none, git_remote := none,
    primary_provider := none, primary_model := none, first_timestamp := none,
    last_timestamp := none, messages := [] }

/-- A minimal persisted session row used to build concrete stores. -/
def plainSession (sid hash : String) : Session :=
  { id := sid, probe_source_id := "p", project_id := none, project_assignment := "auto",
    external_id := sid, short_hash := hash, title := none, primary_provider := none,
    primary_model := none, message_count := 0, first_timestamp := none,
    last_timestamp := none, source_path := "/x", raw_project_path := none,
    raw_git_remote := none, indexed_at := 0 }

/-- A minimal extracted message. -/
def msgMetaA : MessageMetadata :=
  { uuid := some "u1", role := "user", provider_id := some "anthropic", model := some "m1",
    timestamp := none, content_ref := ⟨"/s.jsonl", some 0, some 1, none⟩,
    has_tool_use := false, has_thinking := false, tool_uses := [], token_usage := none }

/-- A store holding two suffixed sessions of the `abcdefgh` base family. -/
def dbSuffixed : List Session :=
  [plainSession "p:a" "abcdefgh-1", plainSession "p:b" "abcdefgh-2"]

/-- A session already persisted with a user-made project assignment. -/
def sessUser : Session :=
  { plainSession "p:r4" "deadbeef" with project_id := some "proj9", project_assignment := "user" }

/-- Store containing `sessUser`. -/
def stUser : Store :=
  { emptyStore with sessions := [sessUser] }

/-- Metadata for a re-extraction of `sessUser`'s source. -/
def mdVisit : SessionMetadata :=
  { mdPlain "r4xyz123" with title := some "T2", primary_provider := some "anthropic" }

/-- Store with one registered project path. -/
def stLinked : Store :=
  { emptyStore with projectPaths := [{ project_id := "proj1", path := "/home/u/proj", is_primary := true }] }

/-- Metadata whose project path matches `stLinked` (no git remote). -/
def mdPathOnly : SessionMetadata :=
  { mdPlain "x1y2z3w4" with project_path := some "/home/u/proj" }

/-- First extraction for the re-extraction scenarios: one message. -/
def mdRunOne : SessionMetadata :=
  { mdPlain "sess1234" with messages := [msgMetaA] }

/-- Second extraction with an empty message sequence (the source was
truncated between runs). -/
def mdRunEmpty : SessionMetadata :=
  mdPlain "sess1234"

/-- The session reference shared by the two extraction runs. -/
def refRun : SessionRef :=
  ⟨"sess1234", "/s.jsonl"⟩

/-- First extraction of the witness scenario: no messages. -/
def mdFirstW : SessionMetadata :=
  mdPlain "w1a2b3c4"

/-- Second extraction of the witness scenario: one message. -/
def mdSecondW : SessionMetadata :=
  { mdPlain "w1a2b3c4" with messages := [msgMetaA] }

/-- The witness session reference. -/
def refW : SessionRef :=
  ⟨"w1", "/w"⟩

/-- The store produced by processing `mdFirstW` on the empty store. -/
def stAfterFirstW : Store :=
  { emptyStore with sessions :=
      [{ id := "p:w1", probe_source_id := "p", project_id := none,
         project_assignment := "auto", external_id := "w1a2b3c4",
         short_hash := "w1a2b3c4", title := none, primary_provider := none,
         primary_model := none, message_count := 0, first_timestamp := none,
         last_timestamp := none, source_path := "/w", raw_project_path := none,
         raw_git_remote := none, indexed_at := 0 }] }

/-- A session reference whose extraction fails. -/
def refBad : SessionRef :=
  ⟨"bad1", "/a/bad1"⟩

/-- A session reference whose extraction succeeds. -/
def refGood : SessionRef :=
  ⟨"good1", "/a/good1"⟩

/-- A session reference of the second probe. -/
def refOther : SessionRef :=
  ⟨"zzz1", "/b/zzz1"⟩

/-- A probe whose first discovered session fails to extract. -/
def probeA : ProbeModel :=
  { id := "pA", provider := "prova", source := "SrcA", sourceType := SourceType.single,
    discovered := [refBad, refGood],
    extract := fun r => if r.id == "bad1" then Except.error () else Except.ok (mdPlain r.id) }

/-- A healthy probe scheduled after `probeA`. -/
def probeB : ProbeModel :=
  { id := "pB", provider := "provb", source := "SrcB", sourceType := SourceType.single,
    discovered := [refOther],
    extract := fun r => Except.ok (mdPlain r.id) }

/-- The filesystem for the content scenarios: one three-byte file. -/
def fsSmall : FileSystem :=
  [("log.jsonl", [104, 105, 10])]

/-- A content reference whose byte offset is far past the end of the file. -/
def refPastEof : ContentRef :=
  ⟨"log.jsonl", some 100, some 1, none⟩

/-- A content reference to a file absent from `fsSmall`. -/
def refMissing : ContentRef :=
  ⟨"gone.jsonl", some 0, some 1, none⟩

/-- A 53-character first line of 101 UTF-8 bytes: 48 two-byte characters
followed by 5 ASCII characters. -/
def cexLine : List Char :=
  List.replicate 48 'é' ++ List.replicate 5 'a'

/-- A user record whose content is `cexLine`. -/
def cexRecord : RawRecord :=
  ⟨"user", some (MsgContent.text cexLine)⟩

/-- A non-user record. -/
def recAssistant : RawRecord :=
  ⟨"assistant", none⟩

/-- A short user record. -/
def recUserHi : RawRecord :=
  ⟨"user", some (MsgContent.text ['h', 'i'])⟩

-- ============================================
-- Helper lemmas
-- ============================================

theorem applyConflictUpdate_id (sid : String) (md : SessionMetadata) (now : Nat) (s : Session) :
    (applyConflictUpdate sid md now s).id = s.id := by
  unfold applyConflictUpdate refreshFields
  split <;> rfl

theorem any_id_map (l : List Session) (f : Session → Session)
    (hf : ∀ s, (f s).id = s.id) (q : String) :
    (l.map f).any (fun s => s.id == q) = l.any (fun s => s.id == q) := by
  induction l with
  | nil => rfl
  | cons a t ih => simp [List.any_cons, hf, ih]

theorem computeShortHash_any_id (db : List Session) (eid : String)
    (pr : String × List Session) (h : computeShortHash db eid = some pr) (q : String) :
    pr.2.any (fun s => s.id == q) = db.any (fun s => s.id == q) := by
  cases hbase : baseHash (stripIdPrefixes eid) with
  | none => simp [computeShortHash, hbase] at h
  | some bh =>
    simp only [computeShortHash, hbase] at h
    by_cases h0 : collisionCount db bh = 0
    · rw [if_pos h0] at h
      cases h
      rfl
    · rw [if_neg h0] at h
      cases h
      simp only []
      split
      · split
        · rfl
        · exact any_id_map db _ (fun s => by split <;> rfl) q
      · rfl

theorem upsertSession_existing (st : Store) (probeId : String) (ref : SessionRef)
    (md : SessionMetadata) (now : Nat) (s0 : Session)
    (h : st.sessions.find? (fun s => s.id == probeId ++ ":" ++ ref.id) = some s0) :
    ∃ projs, upsertSession st probeId ref md now =
      some ({ st with
              sessions := st.sessions.map (applyConflictUpdate (probeId ++ ":" ++ ref.id) md now),
              projects := projs }, probeId ++ ":" ++ ref.id) := by
  have hp := List.find?_some h
  have hmem := List.mem_of_find?_eq_some h
  have hany : st.sessions.any (fun s => s.id == probeId ++ ":" ++ ref.id) = true :=
    List.any_eq_true.mpr ⟨s0, hmem, hp⟩
  cases hauto : autoLinkProject st md with
  | none =>
    refine ⟨st.projects, ?_⟩
    simp [upsertSession, h, hany, hauto]
  | some pid =>
    refine ⟨st.projects.map (fun p => if p.id == pid then { p with last_activity := some now } else p), ?_⟩
    simp [upsertSession, h, hany, hauto, touchProject]

theorem upsertSession_new (st : Store) (probeId : String) (ref : SessionRef)
    (md : SessionMetadata) (now : Nat) (bh : String) (db1 : List Session)
    (hfind : st.sessions.find? (fun s => s.id == probeId ++ ":" ++ ref.id) = none)
    (hcomp : computeShortHash st.sessions md.external_id = some (bh, db1)) :
    ∃ projs, upsertSession st probeId ref md now =
      some ({ st with
              sessions := db1 ++ [newSessionRow probeId ref md (autoLinkProject st md) "auto" bh now],
              projects := projs }, probeId ++ ":" ++ ref.id) := by
  have hanyst : st.sessions.any (fun s => s.id == probeId ++ ":" ++ ref.id) = false := by
    rw [List.any_eq_false]
    intro s hs
    exact List.find?_eq_none.mp hfind s hs
  have hany1 : db1.any (fun s => s.id == probeId ++ ":" ++ ref.id) = false := by
    have h5 : db1.any (fun s => s.id == probeId ++ ":" ++ ref.id) =
        st.sessions.any (fun s => s.id == probeId ++ ":" ++ ref.id) :=
      computeShortHash_any_id st.sessions md.external_id (bh, db1) hcomp (probeId ++ ":" ++ ref.id)
    rw [h5, hanyst]
  cases hauto : autoLinkProject st md with
  | none =>
    refine ⟨st.projects, ?_⟩
    simp [upsertSession, hfind, hcomp, hany1, hauto]
  | some pid =>
    refine ⟨st.projects.map (fun p => if p.id == pid then { p with last_activity := some now } else p), ?_⟩
    simp [upsertSession, hfind, hcomp, hany1, hauto, touchProject]

theorem insertMessagesLoop_sessions (sid : String) (msgs : List MessageMetadata) :
    ∀ st : Store, (insertMessagesLoop st sid msgs).sessions = st.sessions := by
  induction msgs with
  | nil => intro st; rfl
  | cons m rest ih => intro st; rw [insertMessagesLoop, ih]

theorem insertMessages_sessions (st : Store) (sid : String) (msgs : List MessageMetadata) :
    (insertMessages st sid msgs).sessions = st.sessions := by
  rw [insertMessages, insertMessagesLoop_sessions]

theorem insertMessagesLoop_messages (sid : String) (msgs : List MessageMetadata) :
    ∀ st : Store, (insertMessagesLoop st sid msgs).messages =
      st.messages ++ msgRows st.nextMessageId sid msgs := by
  induction msgs with
  | nil => intro st; simp [insertMessagesLoop, msgRows]
  | cons m rest ih => intro st; rw [insertMessagesLoop, ih, msgRows]; simp

theorem msgRows_session_id (sid : String) (msgs : List MessageMetadata) :
    ∀ n r, r ∈ msgRows n sid msgs → r.session_id = sid := by
  induction msgs with
  | nil => intro n r hr; cases hr
  | cons m rest ih =>
    intro n r hr
    rw [msgRows] at hr
    rcases List.mem_cons.mp hr with h | h
    · rw [h]; rfl
    · exact ih (n + 1) r h

theorem msgRows_length (sid : String) (msgs : List MessageMetadata) :
    ∀ n, (msgRows n sid msgs).length = msgs.length := by
  induction msgs with
  | nil => intro n; rfl
  | cons m rest ih => intro n; rw [msgRows]; simp [ih]

theorem msgRows_forall2 (sid : String) (msgs : List MessageMetadata) :
    ∀ n, List.Forall₂ rowMatchesMeta (msgRows n sid msgs) msgs := by
  induction msgs with
  | nil => intro n; exact List.Forall₂.nil
  | cons m rest ih =>
    intro n
    rw [msgRows]
    exact List.Forall₂.cons
      ⟨rfl, rfl, rfl, rfl, rfl, rfl, rfl, rfl, rfl, rfl, rfl⟩ (ih (n + 1))

theorem messagesFor_insertMessages (st : Store) (sid : String) (msgs : List MessageMetadata) :
    messagesFor (insertMessages st sid msgs) sid = msgRows st.nextMessageId sid msgs := by
  unfold messagesFor insertMessages
  rw [insertMessagesLoop_messages]
  simp only [List.filter_append]
  have h1 : (st.messages.filter (fun m => m.session_id != sid)).filter
      (fun m => m.session_id == sid) = [] := by
    apply List.filter_eq_nil_iff.mpr
    intro m hm
    have h2 := (List.mem_filter.mp hm).2
    simp only [bne_iff_ne] at h2
    simp [h2]
  have h2 : (msgRows st.nextMessageId sid msgs).filter (fun m => m.session_id == sid) =
      msgRows st.nextMessageId sid msgs := by
    apply List.filter_eq_self.mpr
    intro r hr
    have := msgRows_session_id sid msgs st.nextMessageId r hr
    simp [this]
  rw [h1, h2, List.nil_append]

theorem upsertSession_some (st st' : Store) (probeId : String) (ref : SessionRef)
    (md : SessionMetadata) (now : Nat) (sid : String)
    (h : upsertSession st probeId ref md now = some (st', sid)) :
    sid = probeId ++ ":" ++ ref.id ∧ st'.sessions.any (fun s => s.id == sid) = true := by
  cases hfind : st.sessions.find? (fun s => s.id == probeId ++ ":" ++ ref.id) with
  | some s0 =>
    obtain ⟨projs, hup⟩ := upsertSession_existing st probeId ref md now s0 hfind
    rw [hup] at h
    cases h
    refine ⟨rfl, ?_⟩
    rw [any_id_map _ _ (applyConflictUpdate_id _ md now)]
    have hp := List.find?_some hfind
    have hmem := List.mem_of_find?_eq_some hfind
    exact List.any_eq_true.mpr ⟨s0, hmem, hp⟩
  | none =>
    cases hcomp : computeShortHash st.sessions md.external_id with
    | none =>
      simp [upsertSession, hfind, hcomp] at h
    | some pr =>
      obtain ⟨projs, hup⟩ := upsertSession_new st probeId ref md now pr.1 pr.2 hfind hcomp
      rw [hup] at h
      cases h
      refine ⟨rfl, ?_⟩
      simp [newSessionRow]

theorem processSession_some (st st' : Store) (probeId : String) (ref : SessionRef)
    (md : SessionMetadata) (now : Nat) (sid : String)
    (h : processSession st probeId ref md now = some (st', sid)) :
    sid = probeId ++ ":" ++ ref.id ∧ st'.sessions.any (fun s => s.id == sid) = true := by
  revert h
  unfold processSession
  cases hup : upsertSession st probeId ref md now with
  | none => intro h; cases h
  | some pr =>
    obtain ⟨st1, sid1⟩ := pr
    obtain ⟨h1, h2⟩ := upsertSession_some st st1 probeId ref md now sid1 hup
    by_cases he : md.messages.isEmpty = true
    · simp only [he, if_true]
      intro h
      cases h
      exact ⟨h1, h2⟩
    · rw [Bool.not_eq_true] at he
      simp only [he, Bool.false_eq_true, if_false]
      intro h
      cases h
      refine ⟨h1, ?_⟩
      rw [insertMessages_sessions]
      exact h2

theorem sessionTitle_skip (pre rest : List RawRecord)
    (hpre : ∀ r2, r2 ∈ pre → (r2.role == "user" && (contentText r2.content).isSome) = false) :
    sessionTitle (pre ++ rest) = sessionTitle rest := by
  induction pre with
  | nil => rfl
  | cons p ptail ih =>
    have hp := hpre p (List.mem_cons_self p ptail)
    have ih2 := ih (fun r2 hm => hpre r2 (List.mem_cons_of_mem p hm))
    rw [List.cons_append, sessionTitle]
    by_cases hrole : (p.role == "user") = true
    · rw [hrole] at hp
      simp only [Bool.true_and] at hp
      cases hct : contentText p.content with
      | none => simp [hct, hrole, ih2]
      | some tt => rw [hct] at hp; simp at hp
    · rw [Bool.not_eq_true] at hrole
      simp [hrole, ih2]

theorem sessionTitle_no_user (recs : List RawRecord)
    (hno : ∀ r2, r2 ∈ recs → ¬ r2.role = "user") : sessionTitle recs = some none := by
  induction recs with
  | nil => rfl
  | cons a tail ih =>
    have ha : (a.role == "user") = false := by
      rw [beq_eq_false_iff_ne]
      exact hno a (List.mem_cons_self a tail)
    rw [sessionTitle]
    simp only [ha, Bool.false_eq_true, if_false]
    exact ih (fun r2 hm => hno r2 (List.mem_cons_of_mem a hm))

-- ============================================
-- Claim theorems
-- ============================================

/-- Claim C1: the spec promises that `short_hash` values of all persisted
sessions are pairwise distinct after every sequence of `upsert_session`
calls from an empty store, backed by a schema uniqueness constraint. The
code violates this invariant: starting from empty, upserting external ids
`"abcde--1xyz"`, `"abcde"`, `"abcde"` (three distinct session keys) makes
`compute_short_hash` parse the stored hash `"abcde--1"` with `CAST` as the
suffix `-1`, so the third call renames the bare `"abcde"` session to
`"abcde-1"` and simultaneously assigns `"abcde-1"` to the new session —
and the schema has no UNIQUE constraint on `short_hash` to reject the
duplicate. This theorem evaluates the model on that trace. -/
theorem upsert_trace_duplicate_short_hash :
    (((upsertSession emptyStore "p" ⟨"r1", "/s1"⟩ (mdPlain "abcde--1xyz") 0).bind fun a =>
      (upsertSession a.1 "p" ⟨"r2", "/s2"⟩ (mdPlain "abcde") 1).bind fun b =>
      upsertSession b.1 "p" ⟨"r3", "/s3"⟩ (mdPlain "abcde") 2).map fun c =>
        c.1.sessions.map (fun s => s.short_hash)) =
      some ["abcde--1", "abcde-1", "abcde-1"] ∧
    ¬ (["abcde--1", "abcde-1", "abcde-1"] : List String).Nodup := by
  exact ⟨by decide, by decide⟩

/-- Claim C2: storing external id `"agent-abcdef1234"` (base `"abcdef12"`)
and then `"abcdef125678"` (same base) into an empty store leaves the first
session renamed in place to `"abcdef12-1"` and assigns `"abcdef12-2"` to the
second, in arrival order. -/
theorem collision_scenario_arrival_order :
    (((upsertSession emptyStore "p" ⟨"agent-abcdef1234", "/s1"⟩ (mdPlain "agent-abcdef1234") 0).bind
        fun a => upsertSession a.1 "p" ⟨"abcdef125678", "/s2"⟩ (mdPlain "abcdef125678") 1).map
          fun b => b.1.sessions.map (fun s => (s.id, s.short_hash))) =
      some [("p:agent-abcdef1234", "abcdef12-1"), ("p:abcdef125678", "abcdef12-2")] := by
  decide

/-- Claim C3: when the base already collides (the COUNT query is non-zero)
and suffixed `base-*` sessions exist (the MAX query returns `some N`),
`compute_short_hash` assigns `base-(N+2)` to the new session. -/
theorem subsequent_collision_assigns_max_plus_two
    (db : List Session) (eid bh : String) (N : Int)
    (hb : baseHash (stripIdPrefixes eid) = some bh)
    (hcnt : collisionCount db bh ≠ 0)
    (hmax : sqlMax (suffixVals db bh) = some N) :
    ∃ db1, computeShortHash db eid = some (bh ++ "-" ++ intStr (N + 2), db1) := by
  have h22 : N + 1 + 1 = N + 2 := by ring
  simp only [computeShortHash, hb, if_neg hcnt, hmax, Option.getD_some, h22]
  exact ⟨_, rfl⟩

/-- Witness for C3: with existing hashes `abcdefgh-1` and `abcdefgh-2`
(maximum suffix 2), external id `"abcdefgh999"` is assigned
`abcdefgh-(2+2) = abcdefgh-4`. -/
theorem subsequent_collision_assigns_max_plus_two_witness :
    ∃ db1, computeShortHash dbSuffixed "abcdefgh999" =
      some ("abcdefgh" ++ "-" ++ intStr (2 + 2), db1) :=
  subsequent_collision_assigns_max_plus_two dbSuffixed "abcdefgh999" "abcdefgh" 2
    (by decide) (by decide) (by decide)

/-- Claim C4: a repeated `upsert_session` for an existing session key hits
the `ON CONFLICT` update path, which preserves `short_hash`, `project_id`
and `project_assignment` for every session and refreshes only the mutable
descriptive fields (title, provider, model, message_count, last_timestamp,
indexed time) of the conflicting row. -/
theorem upsert_update_preserves_identity_and_assignment
    (st : Store) (probeId : String) (ref : SessionRef) (md : SessionMetadata) (now : Nat)
    (s0 : Session)
    (h : st.sessions.find? (fun s => s.id == probeId ++ ":" ++ ref.id) = some s0) :
    ∃ st', upsertSession st probeId ref md now = some (st', probeId ++ ":" ++ ref.id) ∧
      st'.sessions = st.sessions.map (applyConflictUpdate (probeId ++ ":" ++ ref.id) md now) ∧
      st'.sessions.map (fun s => (s.short_hash, s.project_id, s.project_assignment)) =
        st.sessions.map (fun s => (s.short_hash, s.project_id, s.project_assignment)) ∧
      ∀ s, s ∈ st'.sessions → s.id = probeId ++ ":" ++ ref.id →
        s.title = md.title ∧ s.primary_provider = md.primary_provider ∧
        s.primary_model = md.primary_model ∧ s.message_count = md.messages.length ∧
        s.last_timestamp = md.last_timestamp ∧ s.indexed_at = now := by
  obtain ⟨projs, hup⟩ := upsertSession_existing st probeId ref md now s0 h
  refine ⟨_, hup, rfl, ?_, ?_⟩
  · rw [List.map_map]
    apply List.map_congr_left
    intro a _
    simp only [Function.comp_apply, applyConflictUpdate, refreshFields]
    split <;> rfl
  · intro s hs hid
    obtain ⟨t, ht, hts⟩ := List.mem_map.mp hs
    subst hts
    by_cases hti : (t.id == probeId ++ ":" ++ ref.id) = true
    · simp [applyConflictUpdate, refreshFields, hti]
    · exfalso
      rw [applyConflictUpdate_id] at hid
      exact hti (beq_iff_eq.mpr hid)

/-- Witness for C4: re-upserting over a session whose assignment is `user`
keeps its hash, project and assignment untouched. -/
theorem upsert_update_preserves_identity_and_assignment_witness :
    ∃ st', upsertSession stUser "p" ⟨"r4", "/x2"⟩ mdVisit 7 =
        some (st', "p" ++ ":" ++ (⟨"r4", "/x2"⟩ : SessionRef).id) ∧
      st'.sessions.map (fun s => (s.short_hash, s.project_id, s.project_assignment)) =
        stUser.sessions.map (fun s => (s.short_hash, s.project_id, s.project_assignment)) := by
  obtain ⟨st', ha, hb, hc, hd⟩ :=
    upsert_update_preserves_identity_and_assignment stUser "p" ⟨"r4", "/x2"⟩ mdVisit 7
      sessUser (by decide)
  exact ⟨st', ha, hc⟩

/-- Counterexample to claim C5 as stated: when the second extraction yields
an empty message sequence, `extract.rs` skips `insert_messages`, so the
first run's message rows survive while `message_count` is reset to 0 — the
persisted message set does not equal the second extraction's sequence. -/
theorem reextraction_empty_second_run_keeps_old_messages :
    ((processSession emptyStore "p" refRun mdRunOne 0).bind fun a =>
      processSession a.1 "p" refRun mdRunEmpty 1).map
        (fun b => ((messagesFor b.1 "p:sess1234").length,
          b.1.sessions.map (fun s => s.message_count))) =
      some (1, [0]) := by
  decide

/-- Claim C5 (amended): when the second extraction yields at least one
message, re-running extraction for the same session reference keeps the
session key and `short_hash` unchanged, sets `message_count` to the new
sequence length, and replaces the persisted message set exactly by rows
derived one-to-one from the second extraction's sequence. -/
theorem reextraction_replaces_messages
    (st st1 : Store) (probeId : String) (ref : SessionRef) (md1 md2 : SessionMetadata)
    (now1 now2 : Nat) (sid : String)
    (h1 : processSession st probeId ref md1 now1 = some (st1, sid))
    (h2 : md2.messages ≠ []) :
    ∃ st2, processSession st1 probeId ref md2 now2 = some (st2, sid) ∧
      (∀ s1, s1 ∈ st1.sessions → s1.id = sid →
        ∃ s2, s2 ∈ st2.sessions ∧ s2.id = sid ∧ s2.short_hash = s1.short_hash ∧
          s2.message_count = md2.messages.length) ∧
      List.Forall₂ rowMatchesMeta (messagesFor st2 sid) md2.messages ∧
      (messagesFor st2 sid).length = md2.messages.length := by
  obtain ⟨hsid, hany⟩ := processSession_some st st1 probeId ref md1 now1 sid h1
  subst hsid
  have hfs : (st1.sessions.find? (fun s => s.id == probeId ++ ":" ++ ref.id)).isSome := by
    rw [List.find?_isSome]
    exact List.any_eq_true.mp hany
  obtain ⟨s0, hfind⟩ := Option.isSome_iff_exists.mp hfs
  obtain ⟨projs, hup⟩ := upsertSession_existing st1 probeId ref md2 now2 s0 hfind
  have hne : md2.messages.isEmpty = false := by
    cases hmm : md2.messages with
    | nil => exact absurd hmm h2
    | cons a tail => rfl
  have hps : processSession st1 probeId ref md2 now2 =
      some (insertMessages
        { st1 with
          sessions := st1.sessions.map (applyConflictUpdate (probeId ++ ":" ++ ref.id) md2 now2),
          projects := projs } (probeId ++ ":" ++ ref.id) md2.messages,
        probeId ++ ":" ++ ref.id) := by
    simp only [processSession, hup, hne, Bool.false_eq_true, if_false]
  refine ⟨_, hps, ?_, ?_, ?_⟩
  · intro s1 hm hid
    have hbeq : (s1.id == probeId ++ ":" ++ ref.id) = true := beq_iff_eq.mpr hid
    refine ⟨applyConflictUpdate (probeId ++ ":" ++ ref.id) md2 now2 s1, ?_, ?_, ?_, ?_⟩
    · rw [insertMessages_sessions]
      exact List.mem_map_of_mem _ hm
    · rw [applyConflictUpdate_id]
      exact hid
    · simp [applyConflictUpdate, refreshFields, hbeq]
    · simp [applyConflictUpdate, refreshFields, hbeq]
  · rw [messagesFor_insertMessages]
    exact msgRows_forall2 _ _ _
  · rw [messagesFor_insertMessages, msgRows_length]

/-- Witness for C5: a session stored without messages, then re-extracted
with one message; the persisted rows are exactly that one message. -/
theorem reextraction_replaces_messages_witness :
    ∃ st2, processSession stAfterFirstW "p" refW mdSecondW 1 =
        some (st2, "p" ++ ":" ++ refW.id) ∧
      List.Forall₂ rowMatchesMeta (messagesFor st2 ("p" ++ ":" ++ refW.id)) mdSecondW.messages ∧
      (messagesFor st2 ("p" ++ ":" ++ refW.id)).length = mdSecondW.messages.length := by
  obtain ⟨st2, ha, hb, hc, hd⟩ := reextraction_replaces_messages emptyStore stAfterFirstW "p"
    refW mdFirstW mdSecondW 0 1 ("p" ++ ":" ++ refW.id) (by decide) (by decide)
  exact ⟨st2, ha, hc, hd⟩

/-- Claim C6: `auto_link_project` tries an exact path match first (a hit
wins regardless of any git remote), falls back to an exact `git_remote`
identifier match only when the path lookup yields nothing, and when neither
matches a newly inserted session is stored with `project_id = none` and
`project_assignment = "auto"`. -/
theorem auto_link_path_first_then_git_remote
    (st : Store) (md : SessionMetadata) (probeId : String) (ref : SessionRef) (now : Nat) :
    (∀ p pid, md.project_path = some p → findProjectByPath st.projectPaths p = some pid →
      autoLinkProject st md = some pid) ∧
    (md.project_path.bind (findProjectByPath st.projectPaths) = none →
      autoLinkProject st md = md.git_remote.bind (findProjectByGitRemote st.projectIdentifiers)) ∧
    (∀ st2, autoLinkProject st md = none →
      st.sessions.any (fun s1 => s1.id == probeId ++ ":" ++ ref.id) = false →
      upsertSession st probeId ref md now = some (st2, probeId ++ ":" ++ ref.id) →
      ∃ s, s ∈ st2.sessions ∧ s.id = probeId ++ ":" ++ ref.id ∧
        s.project_id = none ∧ s.project_assignment = "auto") := by
  refine ⟨?_, ?_, ?_⟩
  · intro p pid hp hfind
    simp [autoLinkProject, hp, hfind]
  · intro hnone
    cases hpp : md.project_path with
    | none =>
      simp only [autoLinkProject, hpp]
      cases md.git_remote <;> rfl
    | some p =>
      rw [hpp] at hnone
      simp only [Option.some_bind] at hnone
      simp only [autoLinkProject, hpp, hnone]
      cases md.git_remote <;> rfl
  · intro st2 hauto hanyfalse hup
    have hfind : st.sessions.find? (fun s => s.id == probeId ++ ":" ++ ref.id) = none := by
      rw [List.find?_eq_none]
      intro a ha
      exact List.any_eq_false.mp hanyfalse a ha
    cases hcomp : computeShortHash st.sessions md.external_id with
    | none =>
      simp [upsertSession, hfind, hcomp] at hup
    | some pr =>
      obtain ⟨bh, db1⟩ := pr
      obtain ⟨projs, hup2⟩ := upsertSession_new st probeId ref md now bh db1 hfind hcomp
      rw [hup2] at hup
      cases hup
      refine ⟨newSessionRow probeId ref md (autoLinkProject st md) "auto" bh now, ?_, rfl, ?_, rfl⟩
      · simp
      · simp [newSessionRow, hauto]

/-- Witness for C6: a session whose `project_path` exactly matches a stored
project path is auto-linked without any git remote. -/
theorem auto_link_path_first_then_git_remote_witness :
    autoLinkProject stLinked mdPathOnly = some "proj1" := by
  have h := (auto_link_path_first_then_git_remote stLinked mdPathOnly "p" ⟨"x", "/x"⟩ 0).1
  exact h "/home/u/proj" "proj1" (by decide) (by decide)

/-- Counterexample to claim C7 as stated: `extract.rs` line 48 applies `?`
to `extract_metadata`, so one failing session aborts the probe's loop and
the remaining probes: with probe A discovering a failing session before a
healthy one and probe B scheduled after, the run aborts and no session at
all is persisted. -/
theorem extract_failure_aborts_run :
    ((runPipeline 0 emptyStore [probeA, probeB]).1.sessions,
      (runPipeline 0 emptyStore [probeA, probeB]).2) = ([], some RunAbort.extractError) := by
  decide

/-- Claim C7 (amended): a failing `extract_metadata` aborts the per-session
loop at the failing session: the sessions before it remain persisted (the
store is exactly the state after the successful prefix), and the sessions
after it are never processed. -/
theorem run_aborts_at_first_extract_failure
    (probeId : String) (extract : SessionRef → Except Unit SessionMetadata) (now : Nat)
    (st : Store) (pre : List SessionRef) (bad : SessionRef) (post : List SessionRef)
    (hpre : (runSessions probeId extract now st pre).2 = none)
    (hbad : extract bad = Except.error ()) :
    runSessions probeId extract now st (pre ++ bad :: post) =
      ((runSessions probeId extract now st pre).1, some RunAbort.extractError) := by
  induction pre generalizing st with
  | nil =>
    simp only [List.nil_append, runSessions, hbad]
  | cons r rest ih =>
    rw [List.cons_append]
    cases hr : extract r with
    | error e =>
      rw [runSessions, hr] at hpre
      simp at hpre
    | ok md =>
      cases hp : processSession st probeId r md now with
      | none =>
        simp [runSessions, hr, hp] at hpre
      | some pr =>
        obtain ⟨stn, sidn⟩ := pr
        simp only [runSessions, hr, hp] at hpre ⊢
        exact ih stn hpre

/-- Witness for C7 (amended): with one healthy session before the failing
one, the run stops at the failure with exactly the prefix persisted. -/
theorem run_aborts_at_first_extract_failure_witness :
    runSessions "pA" probeA.extract 0 emptyStore ([refGood] ++ refBad :: [refOther]) =
      ((runSessions "pA" probeA.extract 0 emptyStore [refGood]).1, some RunAbort.extractError) :=
  run_aborts_at_first_extract_failure "pA" probeA.extract 0 emptyStore [refGood] refBad
    [refOther] (by decide) rfl

/-- Counterexample to claim C8 as stated: a ContentRef whose byte offset is
past the end of the (still existing) source file does NOT fail —
`seek` past end of file succeeds and `read_line` returns an empty read, so
`get_content` returns `Ok("")`: an empty string treated as success. -/
theorem get_content_past_eof_returns_empty_ok :
    getContent fsSmall refPastEof = Except.ok [] ∧
    getContent fsSmall refPastEof ≠ Except.error ContentError.fileOpenFailed := by
  refine ⟨rfl, ?_⟩
  intro hc
  rw [show getContent fsSmall refPastEof = Except.ok [] from rfl] at hc
  exact Except.noConfusion hc

/-- Claim C8 (amended): `get_content` fails exactly when the source file can
no longer be opened; an offset at or beyond the end of a still-existing file
is not detected and yields a successful empty read. -/
theorem get_content_error_only_on_missing_file (fs : FileSystem) (ref : ContentRef) :
    (fs.find? (fun f => f.1 == ref.source_path) = none →
      getContent fs ref = Except.error ContentError.fileOpenFailed) ∧
    (∀ nm bytes, fs.find? (fun f => f.1 == ref.source_path) = some (nm, bytes) →
      bytes.length ≤ ref.byte_offset.getD 0 →
      getContent fs ref = Except.ok []) := by
  constructor
  · intro h
    simp [getContent, h]
  · intro nm bytes h hlen
    simp only [getContent, h, Option.map_some']
    rw [List.drop_eq_nil_of_le hlen]
    rfl

/-- Witness for C8 (amended): the missing-file case errors and the past-EOF
case returns the empty read. -/
theorem get_content_error_only_on_missing_file_witness :
    getContent fsSmall refMissing = Except.error ContentError.fileOpenFailed ∧
    getContent fsSmall refPastEof = Except.ok [] := by
  obtain ⟨h1, h2⟩ := get_content_error_only_on_missing_file fsSmall refMissing
  obtain ⟨h3, h4⟩ := get_content_error_only_on_missing_file fsSmall refPastEof
  exact ⟨h1 (by decide), h4 "log.jsonl" [104, 105, 10] (by decide) (by decide)⟩

/-- Counterexample to claim C9 as stated: `truncate_title` measures BYTES,
not characters. A first line of 53 characters (48 two-byte characters and 5
ASCII) has 101 UTF-8 bytes, so the code truncates it to its first 97 bytes
plus `"..."` although the claim says a line of at most 100 characters is
kept whole. -/
theorem title_truncation_is_byte_based :
    cexLine.length = 53 ∧ rustFirstLine cexLine = cexLine ∧
    sessionTitle [cexRecord] =
      some (some (List.replicate 48 'é' ++ ['a', '.', '.', '.'])) ∧
    ¬ sessionTitle [cexRecord] = some (some cexLine) := by
  exact ⟨by decide, by decide, by decide, by decide⟩

/-- Claim C9 (amended): the derived title comes from the first user-authored
record with extractable text: it is that text's first line when the line is
at most 100 UTF-8 bytes long, and otherwise the line's first 97 bytes
followed by `"..."` (when byte 97 is a character boundary); sessions with no
user record derive no title. -/
theorem title_from_first_user_message_bytes
    (pre post : List RawRecord) (r : RawRecord) (t : List Char)
    (hpre : ∀ r2, r2 ∈ pre → (r2.role == "user" && (contentText r2.content).isSome) = false)
    (hr : r.role = "user") (ht : contentText r.content = some t) :
    sessionTitle (pre ++ r :: post) = (truncateTitle t).map some ∧
    (utf8Len (rustFirstLine t) ≤ 100 →
      sessionTitle (pre ++ r :: post) = some (some (rustFirstLine t))) ∧
    (∀ pre97, 100 < utf8Len (rustFirstLine t) → takeBytes 97 (rustFirstLine t) = some pre97 →
      sessionTitle (pre ++ r :: post) = some (some (pre97 ++ ['.', '.', '.']))) ∧
    (∀ recs : List RawRecord, (∀ r2, r2 ∈ recs → ¬ r2.role = "user") →
      sessionTitle recs = some none) := by
  have hb : (r.role == "user") = true := beq_iff_eq.mpr hr
  have hmain : sessionTitle (pre ++ r :: post) = (truncateTitle t).map some := by
    rw [sessionTitle_skip pre (r :: post) hpre, sessionTitle]
    simp only [hb, if_true, ht]
  refine ⟨hmain, ?_, ?_, ?_⟩
  · intro hlen
    rw [hmain]
    simp only [truncateTitle]
    rw [if_neg (by omega : ¬ 100 < utf8Len (rustFirstLine t))]
    rfl
  · intro pre97 hgt htake
    rw [hmain]
    simp only [truncateTitle]
    rw [if_pos hgt, htake]
    rfl
  · intro recs hno
    exact sessionTitle_no_user recs hno

/-- Witness for C9 (amended): a short user message after a non-user record
becomes the title verbatim. -/
theorem title_from_first_user_message_bytes_witness :
    sessionTitle ([recAssistant] ++ recUserHi :: []) = some (some ['h', 'i']) := by
  have h := title_from_first_user_message_bytes [recAssistant] [] recUserHi ['h', 'i']
    (by decide) (by decide) (by decide)
  exact h.2.1 (by decide)

/-- Claim C10: `truncate_title` is claimed total, but the slice
`&first_line[..97]` panics when byte 97 is not a character boundary: on a
string of 99 two-byte characters (198 bytes, so the truncation branch is
taken) byte 97 falls inside a character and the model yields `none` (the
Rust panic). -/
theorem truncate_title_panics_on_multibyte :
    truncateTitle (List.replicate 99 'é') = none := by
  decide

end Chronicle
